import Mathlib

/-!
Shallow embedding of the native memory-management stack of MVB_SR_POC:
AlignedAllocator (aligned_allocator.h / aligned_allocator.cpp), MemoryTracker
(memory_tracker.h / memory_tracker.cpp), and MemoryPool with its internal
BlockPool tiers (memory_pool.h / memory_pool.cpp).

Machine integers (size_t, uintptr_t) are modelled as Nat with explicit
reduction modulo W = 2 ^ 64 wherever the C arithmetic can wrap.  Calls into
the platform allocator (std::malloc, and the user pointers produced by
AlignedAllocator::allocate when it is used by the pool layer) are modelled by
explicit oracle arguments: one Option Nat is a single allocation result
(none = failure), a Supply is a stream of such results.  Logging has no
observable effect on the modelled state and is omitted; std::abort is
modelled as a distinguished result value.  Null pointers are the address 0.
-/

namespace SrPoc
namespace Memory

/-- Modulus of 64-bit size_t / uintptr_t arithmetic (LP64 target). -/
def W : Nat := 2 ^ 64

/-- sizeof(AllocationHeader) on LP64: void* (8) + size_t (8) + size_t (8) +
uint32_t (4) padded to the 8-byte struct alignment gives 32 bytes. -/
def headerSize : Nat := 32

/-- Magic number marking a live allocation header (aligned_allocator.h). -/
def MAGIC_NUMBER : Nat := 0xDEADBEEF

/-- Magic number written into a header on deallocation (aligned_allocator.h). -/
def FREED_MAGIC : Nat := 0xFEEDFACE

/-- Wrapping size_t subtraction: a - b reduced modulo W. -/
def subW (a b : Nat) : Nat := (a + (W - b % W)) % W

/-- AllocationHeader from aligned_allocator.h: hidden metadata stored
immediately before each user pointer. -/
structure AllocationHeader where
  raw_ptr : Nat
  size : Nat
  alignment : Nat
  magic : Nat
deriving Repr, DecidableEq

/-- Lookup in an association list keyed by addresses (models reading the
header stored at a user address the allocator has handed out). -/
def hlookup : List (Nat × AllocationHeader) → Nat → Option AllocationHeader
  | [], _ => none
  | (k, v) :: rest, p => if k = p then some v else hlookup rest p

/-- Store (replace-or-append) in the header map. -/
def hstore : List (Nat × AllocationHeader) → Nat → AllocationHeader → List (Nat × AllocationHeader)
  | [], p, v => [(p, v)]
  | (k, w) :: rest, p, v => if k = p then (k, v) :: rest else (k, w) :: hstore rest p v

/-- Global state of AlignedAllocator: the headers of previously produced
allocations (keyed by user address) and the four static atomic counters. -/
structure AAState where
  heap : List (Nat × AllocationHeader)
  total_allocated : Nat
  allocation_count : Nat
  peak_allocated : Nat
  total_deallocated : Nat
deriving Repr, DecidableEq

/-- align_up from aligned_allocator.h:
(addr + alignment - 1) & ~(alignment - 1) in uintptr_t arithmetic.  For
1 ≤ alignment < W, the 64-bit complement ~(alignment - 1) is W - alignment. -/
def align_up (addr alignment : Nat) : Nat :=
  ((addr + alignment - 1) % W) &&& (W - alignment)

namespace AlignedAllocator

/-- AlignedAllocator::allocate.  The std::malloc result is the oracle
argument raw (none = malloc failure).  Returns the user pointer (none on
failure) and the updated global state.  The peak compare-exchange loop is
sequentially equivalent to a max. -/
def allocate (st : AAState) (size alignment : Nat) (raw : Option Nat) :
    Option Nat × AAState :=
  if alignment = 0 ∨ alignment &&& (alignment - 1) ≠ 0 then (none, st)
  else
    let al := if alignment < headerSize then headerSize else alignment
    match raw with
    | none => (none, st)
    | some r =>
      let user_addr := align_up ((r + headerSize) % W) al
      let total' := (st.total_allocated + size) % W
      (some user_addr,
        { heap := hstore st.heap user_addr ⟨r, size, al, MAGIC_NUMBER⟩
          total_allocated := total'
          allocation_count := (st.allocation_count + 1) % W
          peak_allocated := max st.peak_allocated total'
          total_deallocated := st.total_deallocated })

/-- Outcome of AlignedAllocator::deallocate: either a normal return with the
new global state, or process termination via std::abort. -/
inductive DeallocResult where
  | ok (st : AAState)
  | abort
deriving Repr, DecidableEq

/-- AlignedAllocator::deallocate.  A non-null pointer with no recorded header
reads garbage metadata whose magic fails validation, hence aborts.  A header
whose magic is not MAGIC_NUMBER (in particular FREED_MAGIC) aborts.  A live
header is marked FREED_MAGIC and the counters are updated; the header entry
stays in the map, which is exactly what makes a later double free
detectable. -/
def deallocate (st : AAState) (ptr : Nat) : DeallocResult :=
  if ptr = 0 then .ok st
  else
    match hlookup st.heap ptr with
    | none => .abort
    | some h =>
      if h.magic ≠ MAGIC_NUMBER then .abort
      else
        .ok { heap := hstore st.heap ptr { h with magic := FREED_MAGIC }
              total_allocated := (st.total_allocated + (W - h.size % W)) % W
              allocation_count := (st.allocation_count + (W - 1)) % W
              peak_allocated := st.peak_allocated
              total_deallocated := (st.total_deallocated + h.size) % W }

end AlignedAllocator

/-- Lookup in a polymorphic association list (models unordered_map find). -/
def alookup {α β : Type} [DecidableEq α] : List (α × β) → α → Option β
  | [], _ => none
  | (k, v) :: rest, p => if k = p then some v else alookup rest p

/-- Replace-or-append store (models unordered_map operator[] assignment). -/
def astore {α β : Type} [DecidableEq α] : List (α × β) → α → β → List (α × β)
  | [], p, v => [(p, v)]
  | (k, w) :: rest, p, v => if k = p then (k, v) :: rest else (k, w) :: astore rest p v

/-- Erase a key (models unordered_map erase). -/
def aerase {α β : Type} [DecidableEq α] : List (α × β) → α → List (α × β)
  | [], _ => []
  | (k, w) :: rest, p => if k = p then rest else (k, w) :: aerase rest p

/-- Lookup with a default value (models operator[] read-out with value
initialization when the key is absent). -/
def agetD {α β : Type} [DecidableEq α] (l : List (α × β)) (k : α) (d : β) : β :=
  (alookup l k).getD d

/-- AllocationInfo from memory_tracker.h.  The unused stack-trace fields are
omitted; the steady-clock timestamp is an abstract tick supplied by the
caller. -/
structure AllocationInfo where
  size : Nat
  alignment : Nat
  tag : String
  timestamp : Nat
deriving Repr, DecidableEq

/-- MemoryTracker::Statistics from memory_tracker.h. -/
structure TrackerStats where
  total_allocations : Nat := 0
  total_deallocations : Nat := 0
  current_allocated : Nat := 0
  peak_allocated : Nat := 0
  total_bytes_allocated : Nat := 0
  total_bytes_deallocated : Nat := 0
  allocations_by_tag : List (String × Nat) := []
deriving Repr, DecidableEq

/-- MemoryTracker state: the enabled flag (default true), the ledger of live
allocations, and aggregate statistics. -/
structure MemoryTracker where
  enabled : Bool := true
  allocations : List (Nat × AllocationInfo) := []
  stats : TrackerStats := {}
deriving Repr, DecidableEq

/-- MemoryTracker::track_allocation: ignored if disabled or null; inserts or
overwrites the ledger entry, bumps the aggregate counters and the tag total
(untagged entries skip the per-tag map), then updates the peak. -/
def MemoryTracker.track_allocation (t : MemoryTracker) (ptr size alignment : Nat)
    (tag : String) (now : Nat) : MemoryTracker :=
  if t.enabled = false ∨ ptr = 0 then t
  else
    let cur' := (t.stats.current_allocated + size) % W
    { t with
      allocations := astore t.allocations ptr ⟨size, alignment, tag, now⟩
      stats := { t.stats with
        total_allocations := (t.stats.total_allocations + 1) % W
        current_allocated := cur'
        total_bytes_allocated := (t.stats.total_bytes_allocated + size) % W
        allocations_by_tag :=
          if tag = "" then t.stats.allocations_by_tag
          else astore t.stats.allocations_by_tag tag
            ((agetD t.stats.allocations_by_tag tag 0 + size) % W)
        peak_allocated := max t.stats.peak_allocated cur' } }

/-- MemoryTracker::track_deallocation: ignored if disabled or null; a
pointer absent from the ledger is logged and tolerated (no state change);
otherwise the entry is removed, the aggregate counters updated, and the tag
total decremented, with the tag key erased when the total reaches zero. -/
def MemoryTracker.track_deallocation (t : MemoryTracker) (ptr : Nat) : MemoryTracker :=
  if t.enabled = false ∨ ptr = 0 then t
  else
    match alookup t.allocations ptr with
    | none => t
    | some info =>
      let base : TrackerStats := { t.stats with
        total_deallocations := (t.stats.total_deallocations + 1) % W
        current_allocated := subW t.stats.current_allocated info.size
        total_bytes_deallocated := (t.stats.total_bytes_deallocated + info.size) % W }
      let stats' : TrackerStats :=
        if info.tag = "" then base
        else
          let v := subW (agetD base.allocations_by_tag info.tag 0) info.size
          if v = 0 then
            { base with allocations_by_tag := aerase base.allocations_by_tag info.tag }
          else
            { base with allocations_by_tag := astore base.allocations_by_tag info.tag v }
      { t with allocations := aerase t.allocations ptr, stats := stats' }

/-- MemoryTracker::detect_leaks: every pointer still present in the ledger. -/
def MemoryTracker.detect_leaks (t : MemoryTracker) : List Nat :=
  t.allocations.map Prod.fst

/-- MemoryTracker::clear. -/
def MemoryTracker.clear (t : MemoryTracker) : MemoryTracker :=
  { t with allocations := [], stats := {} }

/-- MemoryTracker::set_enabled. -/
def MemoryTracker.set_enabled (t : MemoryTracker) (e : Bool) : MemoryTracker :=
  { t with enabled := e }

/-- One pooled block (memory_pool.h struct Block): its data pointer and the
in-use flag. -/
structure Block where
  data : Nat
  in_use : Bool
deriving Repr, DecidableEq

/-- A stream of allocation results handed back by AlignedAllocator::allocate
when the pool layer requests memory (none = allocation failure). -/
abbrev Supply := List (Option Nat)

/-- Consume one allocation result; an exhausted stream keeps failing. -/
def takeSupply : Supply → Option Nat × Supply
  | [] => (none, [])
  | o :: rest => (o, rest)

/-- BlockPool state (memory_pool.h): configuration, the owned blocks (the
blocks_ vector, in order) and the FIFO free list.  The C++ free list stores
Block* values, which are stable per-block identities; the model stores the
block's index in blocks_ as that identity. -/
structure BlockPool where
  block_size : Nat
  alignment : Nat
  allow_expansion : Bool
  blocks : List Block
  free_list : List Nat
deriving Repr, DecidableEq

/-- Append a freshly allocated block and push it on the free list (the
shared body of the constructor loop and of expand_pool). -/
def BlockPool.pushBlock (p : BlockPool) (addr : Nat) : BlockPool :=
  { p with
    blocks := p.blocks ++ [⟨addr, false⟩]
    free_list := p.free_list ++ [p.blocks.length] }

/-- Allocation loop: try to add n blocks, stopping at the first allocation
failure (the break in the constructor loop and in expand_pool). -/
def BlockPool.allocLoop : Nat → BlockPool → Supply → BlockPool × Supply
  | 0, p, s => (p, s)
  | n + 1, p, s =>
    match takeSupply s with
    | (none, s') => (p, s')
    | (some addr, s') => BlockPool.allocLoop n (p.pushBlock addr) s'

/-- BlockPool constructor: pre-allocate initial_count blocks. -/
def BlockPool.create (block_size initial_count alignment : Nat) (allow_expansion : Bool)
    (s : Supply) : BlockPool × Supply :=
  BlockPool.allocLoop initial_count ⟨block_size, alignment, allow_expansion, [], []⟩ s

/-- BlockPool::expand_pool: grow by max(1, blocks/4) blocks. -/
def BlockPool.expand_pool (p : BlockPool) (s : Supply) : BlockPool × Supply :=
  BlockPool.allocLoop (max 1 (p.blocks.length / 4)) p s

/-- Set the in-use flag of the block at index i. -/
def markBlock : List Block → Nat → Bool → List Block
  | [], _, _ => []
  | b :: bs, 0, u => { b with in_use := u } :: bs
  | b :: bs, n + 1, u => b :: markBlock bs n u

/-- BlockPool::acquire: if the free list is empty and expansion is allowed,
expand; if the free list is still empty, fail (exhausted); otherwise pop
the front block, mark it in use and return its data pointer. -/
def BlockPool.acquire (p : BlockPool) (s : Supply) : Option Nat × BlockPool × Supply :=
  let ps := if p.free_list.isEmpty && p.allow_expansion then p.expand_pool s else (p, s)
  match ps.1.free_list with
  | [] => (none, ps.1, ps.2)
  | i :: rest =>
    (some ((ps.1.blocks.getD i ⟨0, false⟩).data),
     { ps.1 with blocks := markBlock ps.1.blocks i true, free_list := rest },
     ps.2)

/-- Scan of BlockPool::release: find the first block whose data pointer
matches.  A match that is already free is the tolerated double release (the
scan stops, no change); a match that is leased is marked free and its index
reported for the free-list push. -/
def releaseScan : List Block → Nat → Option (List Block × Nat)
  | [], _ => none
  | b :: bs, ptr =>
    if b.data = ptr then
      if b.in_use then some ({ b with in_use := false } :: bs, 0) else none
    else
      match releaseScan bs ptr with
      | none => none
      | some (bs', j) => some (b :: bs', j + 1)

/-- BlockPool::release. -/
def BlockPool.release (p : BlockPool) (ptr : Nat) : BlockPool :=
  if ptr = 0 then p
  else
    match releaseScan p.blocks ptr with
    | none => p
    | some (bs', j) => { p with blocks := bs', free_list := p.free_list ++ [j] }

/-- BlockPool::owns: linear scan for the data pointer. -/
def BlockPool.owns (p : BlockPool) (ptr : Nat) : Bool :=
  ptr != 0 && p.blocks.any (fun b => b.data == ptr)

/-- One observable BlockPool operation (C4 quantifies over sequences of
these). -/
inductive PoolOp where
  | acquire
  | release (ptr : Nat)
  | expand
deriving Repr, DecidableEq

/-- Apply one operation to a BlockPool, threading the allocation supply. -/
def BlockPool.step (p : BlockPool) (s : Supply) : PoolOp → BlockPool × Supply
  | .acquire =>
    match p.acquire s with
    | (_, p', s') => (p', s')
  | .release ptr => (p.release ptr, s)
  | .expand => p.expand_pool s

/-- Run a sequence of BlockPool operations. -/
def BlockPool.run (p : BlockPool) (s : Supply) : List PoolOp → BlockPool × Supply
  | [] => (p, s)
  | op :: ops =>
    match p.step s op with
    | (p', s') => BlockPool.run p' s' ops

/-- Number of leased (in-use) blocks. -/
def BlockPool.inUseCount (p : BlockPool) : Nat :=
  (p.blocks.filter (fun b => b.in_use)).length

/-- Free-list well-formedness: the indices are distinct and are exactly the
indices of the not-in-use blocks. -/
def BlockPool.Inv (p : BlockPool) : Prop :=
  p.free_list.Nodup ∧
  ∀ i, i ∈ p.free_list ↔
    (i < p.blocks.length ∧ (p.blocks.getD i ⟨0, false⟩).in_use = false)

/-- A call into the process-wide MemoryTracker made by MemoryPool.  The pool
layer records these calls as events; the tracker's own state transition is
modelled separately by MemoryTracker. -/
inductive Event where
  | trackAlloc (ptr size alignment : Nat) (tag : String)
  | trackDealloc (ptr : Nat)
deriving Repr, DecidableEq

/-- MemoryPool::Config (memory_pool.h) with its default values. -/
structure Config where
  small_block_size : Nat := 8 * 1024
  medium_block_size : Nat := 64 * 1024
  large_block_size : Nat := 1024 * 1024
  small_pool_count : Nat := 128
  medium_pool_count : Nat := 32
  large_pool_count : Nat := 8
  alignment : Nat := 64
  enable_statistics : Bool := true
  zero_on_dealloc : Bool := true
  allow_expansion : Bool := true
deriving Repr, DecidableEq

/-- MemoryPool::Statistics (memory_pool.h).  hit_rate is a derived double
computed only in get_statistics snapshots; floating point is outside the
model and no claim refers to it, so the field is omitted. -/
structure Statistics where
  total_allocated : Nat := 0
  total_deallocated : Nat := 0
  current_usage : Nat := 0
  peak_usage : Nat := 0
  allocation_count : Nat := 0
  deallocation_count : Nat := 0
  cache_hits : Nat := 0
  cache_misses : Nat := 0
  small_pool_hits : Nat := 0
  medium_pool_hits : Nat := 0
  large_pool_hits : Nat := 0
  direct_allocations : Nat := 0
deriving Repr, DecidableEq

/-- The three BlockPool tiers of a MemoryPool. -/
inductive Tier where
  | small
  | medium
  | large
deriving Repr, DecidableEq

/-- MemoryPool state: configuration, the three tiers, the direct-allocation
map (pointer → size) and the aggregate statistics. -/
structure MemoryPool where
  config : Config
  small_pool : BlockPool
  medium_pool : BlockPool
  large_pool : BlockPool
  direct_allocations : List (Nat × Nat)
  stats : Statistics
deriving Repr, DecidableEq

/-- Block size of a tier in a configuration. -/
def Config.tier_block_size (cfg : Config) : Tier → Nat
  | .small => cfg.small_block_size
  | .medium => cfg.medium_block_size
  | .large => cfg.large_block_size

/-- The BlockPool of a tier. -/
def MemoryPool.tier_pool (m : MemoryPool) : Tier → BlockPool
  | .small => m.small_pool
  | .medium => m.medium_pool
  | .large => m.large_pool

/-- Replace the BlockPool of a tier. -/
def MemoryPool.set_tier_pool (m : MemoryPool) : Tier → BlockPool → MemoryPool
  | .small, bp => { m with small_pool := bp }
  | .medium, bp => { m with medium_pool := bp }
  | .large, bp => { m with large_pool := bp }

/-- The per-tier hit counter bump of MemoryPool::allocate; these counters
sit outside the enable_statistics gate. -/
def Statistics.bump_tier_hit (st : Statistics) : Tier → Statistics
  | .small => { st with small_pool_hits := (st.small_pool_hits + 1) % W }
  | .medium => { st with medium_pool_hits := (st.medium_pool_hits + 1) % W }
  | .large => { st with large_pool_hits := (st.large_pool_hits + 1) % W }

/-- MemoryPool::select_pool: first tier in the order small, medium, large
whose block size is ≥ the request (inclusive bounds), else none. -/
def MemoryPool.select_pool (cfg : Config) (size : Nat) : Option Tier :=
  if size ≤ cfg.small_block_size then some .small
  else if size ≤ cfg.medium_block_size then some .medium
  else if size ≤ cfg.large_block_size then some .large
  else none

/-- MemoryPool::update_statistics (early return when statistics are
disabled); update_peak_usage is inlined as a max. -/
def MemoryPool.update_statistics (cfg : Config) (st : Statistics) (size : Nat)
    (is_allocation is_pool_hit : Bool) : Statistics :=
  if cfg.enable_statistics = false then st
  else if is_allocation then
    let cur' := (st.current_usage + size) % W
    { st with
      total_allocated := (st.total_allocated + size) % W
      current_usage := cur'
      allocation_count := (st.allocation_count + 1) % W
      cache_hits := if is_pool_hit then (st.cache_hits + 1) % W else st.cache_hits
      cache_misses := if is_pool_hit then st.cache_misses else (st.cache_misses + 1) % W
      peak_usage := max st.peak_usage cur' }
  else
    { st with
      total_deallocated := (st.total_deallocated + size) % W
      current_usage := subW st.current_usage size
      deallocation_count := (st.deallocation_count + 1) % W }

/-- Common successful tail of MemoryPool::allocate: the zero_on_dealloc
memset touches only memory contents (outside the model); the statistics
update and the tracker call. -/
def MemoryPool.finish (m : MemoryPool) (q size : Nat) (is_pool_hit : Bool) (s : Supply) :
    Option Nat × MemoryPool × Supply × List Event :=
  (some q,
   { m with stats := MemoryPool.update_statistics m.config m.stats size true is_pool_hit },
   s,
   [Event.trackAlloc q size m.config.alignment "MemoryPool"])

/-- Direct-allocation fallback of MemoryPool::allocate: one
AlignedAllocator::allocate(size, alignment) call, registering the pointer in
the direct map and bumping the (ungated) direct_allocations counter. -/
def MemoryPool.direct_path (m : MemoryPool) (size : Nat) (s : Supply) :
    Option Nat × MemoryPool × Supply × List Event :=
  match takeSupply s with
  | (none, s') => (none, m, s', [])
  | (some addr, s') =>
    MemoryPool.finish
      { m with
        direct_allocations := astore m.direct_allocations addr size
        stats := { m.stats with direct_allocations := (m.stats.direct_allocations + 1) % W } }
      addr size false s'

/-- MemoryPool::allocate. -/
def MemoryPool.allocate (m : MemoryPool) (size : Nat) (s : Supply) :
    Option Nat × MemoryPool × Supply × List Event :=
  if size = 0 then (none, m, s, [])
  else
    match MemoryPool.select_pool m.config size with
    | none => m.direct_path size s
    | some t =>
      match (m.tier_pool t).acquire s with
      | (some q, bp', s') =>
        MemoryPool.finish
          { m.set_tier_pool t bp' with
            stats := ((m.set_tier_pool t bp').stats).bump_tier_hit t }
          q size true s'
      | (none, bp', s') => (m.set_tier_pool t bp').direct_path size s'

/-- MemoryPool::deallocate: probe tier ownership small → medium → large,
then the direct map; an unknown pointer is logged and ignored.  Every
non-null pointer ends with a MemoryTracker::track_deallocation call,
recorded as an event. -/
def MemoryPool.deallocate (m : MemoryPool) (ptr : Nat) : MemoryPool × List Event :=
  if ptr = 0 then (m, [])
  else if m.small_pool.owns ptr then
    ({ m with
       small_pool := m.small_pool.release ptr
       stats := MemoryPool.update_statistics m.config m.stats
         m.config.small_block_size false true },
     [Event.trackDealloc ptr])
  else if m.medium_pool.owns ptr then
    ({ m with
       medium_pool := m.medium_pool.release ptr
       stats := MemoryPool.update_statistics m.config m.stats
         m.config.medium_block_size false true },
     [Event.trackDealloc ptr])
  else if m.large_pool.owns ptr then
    ({ m with
       large_pool := m.large_pool.release ptr
       stats := MemoryPool.update_statistics m.config m.stats
         m.config.large_block_size false true },
     [Event.trackDealloc ptr])
  else
    match alookup m.direct_allocations ptr with
    | some sz =>
      ({ m with
         direct_allocations := aerase m.direct_allocations ptr
         stats := MemoryPool.update_statistics m.config m.stats sz false false },
       [Event.trackDealloc ptr])
    | none => (m, [Event.trackDealloc ptr])

/-- MemoryPool::get_statistics: a snapshot of the stored statistics (the
snapshot's derived floating-point hit_rate is outside the model). -/
def MemoryPool.get_statistics (m : MemoryPool) : Statistics := m.stats

/-- MemoryPool constructor: build the three tiers from the configuration. -/
def MemoryPool.create (cfg : Config) (s : Supply) : MemoryPool × Supply :=
  match BlockPool.create cfg.small_block_size cfg.small_pool_count
      cfg.alignment cfg.allow_expansion s with
  | (sp, s1) =>
    match BlockPool.create cfg.medium_block_size cfg.medium_pool_count
        cfg.alignment cfg.allow_expansion s1 with
    | (mp, s2) =>
      match BlockPool.create cfg.large_block_size cfg.large_pool_count
          cfg.alignment cfg.allow_expansion s2 with
      | (lp, s3) => (⟨cfg, sp, mp, lp, [], {}⟩, s3)

/-- Run a sequence of allocate calls, collecting the returned pointers. -/
def MemoryPool.allocMany (m : MemoryPool) (s : Supply) :
    List Nat → List (Option Nat) × MemoryPool × Supply
  | [] => ([], m, s)
  | sz :: rest =>
    match m.allocate sz s with
    | (q, m', s', _) =>
      match m'.allocMany s' rest with
      | (qs, m'', s'') => (q :: qs, m'', s'')

/-- Run a sequence of deallocate calls. -/
def MemoryPool.deallocMany (m : MemoryPool) : List Nat → MemoryPool
  | [] => m
  | q :: rest => ((m.deallocate q).1).deallocMany rest

/-- Which of the four counting paths MemoryPool::allocate takes from a given
state (mirrors the branch structure of allocate). -/
inductive AllocPath where
  | noalloc
  | tierHit (t : Tier)
  | direct
deriving Repr, DecidableEq

/-- Path taken by allocate from a given state and supply. -/
def MemoryPool.alloc_path (m : MemoryPool) (size : Nat) (s : Supply) : AllocPath :=
  if size = 0 then .noalloc
  else
    match MemoryPool.select_pool m.config size with
    | none => if (takeSupply s).1.isSome then .direct else .noalloc
    | some t =>
      match (m.tier_pool t).acquire s with
      | (some _, _, _) => .tierHit t
      | (none, _, s') => if (takeSupply s').1.isSome then .direct else .noalloc

/-- Effect of one allocate call on the four counters that sit outside the
enable_statistics gate. -/
def Statistics.bump_path (st : Statistics) : AllocPath → Statistics
  | .noalloc => st
  | .tierHit t => st.bump_tier_hit t
  | .direct => { st with direct_allocations := (st.direct_allocations + 1) % W }

/-- Configuration of the C1 scenario: small = 1024 × 4, medium and large
empty, alignment 64, behaviour flags at their defaults (all true). -/
def c1Config : Config :=
  { small_block_size := 1024, medium_block_size := 0, large_block_size := 0,
    small_pool_count := 4, medium_pool_count := 0, large_pool_count := 0,
    alignment := 64, enable_statistics := true, zero_on_dealloc := true,
    allow_expansion := true }

/-- Distinct non-null user addresses for the C1 scenario. -/
def c1Supply : Supply := (List.range 16).map (fun i => some ((i + 1) * 4096))

/-- C1 scenario, stage 1: pool construction. -/
def c1S1 : MemoryPool × Supply := MemoryPool.create c1Config c1Supply

/-- C1 scenario, stage 2: four allocate(500) calls. -/
def c1S2 : List (Option Nat) × MemoryPool × Supply :=
  c1S1.1.allocMany c1S1.2 [500, 500, 500, 500]

/-- C1 scenario, stage 3: the fifth allocate(500), which expands the small
tier, followed by the allocate(2000) that becomes a direct allocation. -/
def c1S3 : List (Option Nat) × MemoryPool × Supply :=
  c1S2.2.1.allocMany c1S2.2.2 [500, 2000]

/-- C1 scenario, final state: deallocate all six returned pointers. -/
def c1Final : MemoryPool :=
  c1S3.2.1.deallocMany [4096, 8192, 12288, 16384, 20480, 24576]

/-- Fixture tracker for the C7 witness: one live tagged entry. -/
def c7t : MemoryTracker :=
  { enabled := true,
    allocations := [(5, ⟨100, 64, "x", 0⟩)],
    stats := { total_allocations := 1, current_allocated := 100,
               peak_allocated := 100, total_bytes_allocated := 100,
               allocations_by_tag := [("x", 100)] } }

/-- Fixture tracker for the C10 witness: enabled and empty. -/
def c10t : MemoryTracker := { enabled := true }

/-- Fixture pool for the C6 and C9 witnesses: default configuration, empty
tiers, no direct allocations. -/
def mpFixture : MemoryPool :=
  { config := {},
    small_pool := ⟨8 * 1024, 64, true, [], []⟩,
    medium_pool := ⟨64 * 1024, 64, true, [], []⟩,
    large_pool := ⟨1024 * 1024, 64, true, [], []⟩,
    direct_allocations := [],
    stats := {} }

/-- Fixture pool for the C8 witness: like mpFixture but with statistics
disabled. -/
def mpFixtureNoStats : MemoryPool :=
  { mpFixture with config := { enable_statistics := false } }

/-- Looking up the key just stored returns the stored value. -/
theorem hlookup_hstore (l : List (Nat × AllocationHeader)) (p : Nat) (v : AllocationHeader) :
    hlookup (hstore l p v) p = some v := by
  induction l with
  | nil => simp [hstore, hlookup]
  | cons kv rest ih =>
    obtain ⟨k, w⟩ := kv
    by_cases hk : k = p
    · simp [hstore, hlookup, hk]
    · simp [hstore, hlookup, hk, ih]

/-- Rounding up to a power of two 2 ^ m (m ≤ 64) yields a multiple of 2 ^ m,
for every input address, including when the 64-bit addition wraps. -/
theorem align_up_two_pow_mod (x m : Nat) (hm : m ≤ 64) :
    align_up x (2 ^ m) % 2 ^ m = 0 := by
  have hdvd : 2 ^ m ∣ W - 2 ^ m := Nat.dvd_sub' (Nat.pow_dvd_pow 2 hm) dvd_rfl
  have hmask : (W - 2 ^ m) &&& (2 ^ m - 1) = 0 := by
    obtain ⟨c, hc⟩ := hdvd
    rw [Nat.and_pow_two_sub_one_eq_mod, hc, Nat.mul_mod_right]
  calc align_up x (2 ^ m) % 2 ^ m
      = align_up x (2 ^ m) &&& (2 ^ m - 1) :=
        (Nat.and_pow_two_sub_one_eq_mod _ m).symm
    _ = ((x + 2 ^ m - 1) % W) &&& ((W - 2 ^ m) &&& (2 ^ m - 1)) := by
        rw [align_up, Nat.land_assoc]
    _ = 0 := by rw [hmask, Nat.and_zero]

/-- C2: for every power-of-two alignment A (as a size_t value, so A < 2^64)
and every size S ≥ 1, if AlignedAllocator.allocate(S, A) returns a non-null
pointer P then P mod A = 0, including when A is smaller than the allocation
header size and the effective alignment is raised to the header size. -/
theorem claim_c2_allocate_aligned (st : AAState) (S A raw P : Nat)
    (hpow : ∃ k, A = 2 ^ k) (hA : A < W) (hS : 1 ≤ S)
    (hres : (AlignedAllocator.allocate st S A (some raw)).1 = some P) :
    P % A = 0 := by
  obtain ⟨k, rfl⟩ := hpow
  have hself : (2 : Nat) ^ k &&& (2 ^ k - 1) = 0 := by
    rw [Nat.and_pow_two_sub_one_eq_mod, Nat.mod_self]
  have hval : ¬((2 : Nat) ^ k = 0 ∨ (2 : Nat) ^ k &&& (2 ^ k - 1) ≠ 0) := by
    have h0 : (2 : Nat) ^ k ≠ 0 := by positivity
    simp [hself, h0]
  rw [AlignedAllocator.allocate, if_neg hval] at hres
  simp only [Option.some.injEq] at hres
  subst hres
  have hk64 : k < 64 := by
    have := hA
    rw [W] at this
    exact (Nat.pow_lt_pow_iff_right (by norm_num)).mp this
  by_cases hsmall : (2 : Nat) ^ k < headerSize
  · -- effective alignment raised to headerSize = 32 = 2 ^ 5
    have h5 : (headerSize : Nat) = 2 ^ 5 := by norm_num [headerSize]
    have hk5 : k < 5 := by
      have : (2 : Nat) ^ k < 2 ^ 5 := by rw [← h5]; exact hsmall
      exact (Nat.pow_lt_pow_iff_right (by norm_num)).mp this
    rw [if_pos hsmall, h5]
    have hmod : align_up ((raw + 2 ^ 5) % W) (2 ^ 5) % 2 ^ 5 = 0 :=
      align_up_two_pow_mod _ 5 (by norm_num)
    have hdvd5 : (2 : Nat) ^ k ∣ align_up ((raw + 2 ^ 5) % W) (2 ^ 5) :=
      dvd_trans (Nat.pow_dvd_pow 2 (Nat.le_of_lt hk5)) (Nat.dvd_of_mod_eq_zero hmod)
    obtain ⟨c, hc⟩ := hdvd5
    rw [hc, Nat.mul_mod_right]
  · -- effective alignment is A itself
    have hmod : align_up ((raw + headerSize) % W) (2 ^ k) % 2 ^ k = 0 :=
      align_up_two_pow_mod _ k (Nat.le_of_lt hk64)
    simp only [if_neg hsmall]
    exact hmod

/-- Witness for C2 at S = 1, A = 16, raw = 0: the returned pointer is 32,
and 32 mod 16 = 0. -/
theorem claim_c2_witness :
    (∃ k, (16 : Nat) = 2 ^ k) ∧ (16 : Nat) < W ∧ (1 : Nat) ≤ 1 ∧
    (AlignedAllocator.allocate ⟨[], 0, 0, 0, 0⟩ 1 16 (some 0)).1 = some 32 ∧
    (32 : Nat) % 16 = 0 :=
  ⟨⟨4, by norm_num⟩, by norm_num [W], le_refl 1, by decide,
   claim_c2_allocate_aligned ⟨[], 0, 0, 0, 0⟩ 1 16 0 32 ⟨4, by norm_num⟩
     (by norm_num [W]) (le_refl 1) (by decide)⟩

/-- C3: deallocating a pointer whose header is already marked FREED_MAGIC
aborts the process (first conjunct), and in particular a second deallocate of
a pointer whose first deallocate returned normally aborts (second conjunct);
deallocate never silently continues past a freed header. -/
theorem claim_c3_double_free_aborts :
    (∀ (st : AAState) (ptr : Nat) (h : AllocationHeader), ptr ≠ 0 →
      hlookup st.heap ptr = some h → h.magic = FREED_MAGIC →
      AlignedAllocator.deallocate st ptr = .abort) ∧
    (∀ (st : AAState) (st' : AAState) (ptr : Nat) (h : AllocationHeader), ptr ≠ 0 →
      hlookup st.heap ptr = some h →
      AlignedAllocator.deallocate st ptr = .ok st' →
      AlignedAllocator.deallocate st' ptr = .abort) := by
  constructor
  · intro st ptr h hptr hlook hfreed
    have hne : h.magic ≠ MAGIC_NUMBER := by
      rw [hfreed]
      decide
    simp only [AlignedAllocator.deallocate, if_neg hptr, hlook, if_pos hne]
  · intro st st' ptr h hptr hlook hok
    simp only [AlignedAllocator.deallocate, if_neg hptr, hlook] at hok
    by_cases hm : h.magic ≠ MAGIC_NUMBER
    · rw [if_pos hm] at hok
      exact absurd hok (by simp)
    · rw [if_neg hm] at hok
      have hst' := AlignedAllocator.DeallocResult.ok.inj hok
      have hne2 : ({ h with magic := FREED_MAGIC } : AllocationHeader).magic ≠ MAGIC_NUMBER := by
        norm_num [FREED_MAGIC, MAGIC_NUMBER]
      simp only [AlignedAllocator.deallocate, if_neg hptr, ← hst', hlookup_hstore, if_pos hne2]

/-- Witness for C3: deallocating an already-freed header at address 64
aborts, and a live header at 64 deallocated once normally aborts on the
second deallocate. -/
theorem claim_c3_witness :
    AlignedAllocator.deallocate ⟨[(64, ⟨0, 5, 32, FREED_MAGIC⟩)], 0, 0, 0, 0⟩ 64 = .abort ∧
    AlignedAllocator.deallocate ⟨[(64, ⟨0, 5, 32, FREED_MAGIC⟩)], W - 5, W - 1, 0, 5⟩ 64 = .abort :=
  ⟨claim_c3_double_free_aborts.1 ⟨[(64, ⟨0, 5, 32, FREED_MAGIC⟩)], 0, 0, 0, 0⟩ 64
      ⟨0, 5, 32, FREED_MAGIC⟩ (by decide) (by decide) (by decide),
   claim_c3_double_free_aborts.2 ⟨[(64, ⟨0, 5, 32, MAGIC_NUMBER⟩)], 0, 0, 0, 0⟩ _ 64
      ⟨0, 5, 32, MAGIC_NUMBER⟩ (by decide) (by decide) (by decide)⟩

/-- Looking up the key just stored in an association list returns the stored
value. -/
theorem alookup_astore_self {α β : Type} [DecidableEq α] (l : List (α × β)) (p : α) (v : β) :
    alookup (astore l p v) p = some v := by
  induction l with
  | nil => simp [astore, alookup]
  | cons kv rest ih =>
    obtain ⟨k, w⟩ := kv
    by_cases hk : k = p
    · simp [astore, alookup, hk]
    · simp [astore, alookup, hk, ih]

/-- A key with a binding is among the mapped-out keys. -/
theorem mem_map_fst_of_alookup {α β : Type} [DecidableEq α] (l : List (α × β)) (p : α) (v : β)
    (h : alookup l p = some v) : p ∈ l.map Prod.fst := by
  induction l with
  | nil => simp [alookup] at h
  | cons kv rest ih =>
    obtain ⟨k, w⟩ := kv
    by_cases hk : k = p
    · simp [hk]
    · simp only [alookup, if_neg hk] at h
      simp [ih h]

/-- C7: track_deallocation with an unknown pointer leaves the tracker fully
unchanged (ledger, aggregate statistics and per-tag totals); with a tracked
pointer it removes the ledger entry, decrements current bytes, increments
total-deallocated bytes and the deallocation count (wrapping size_t
arithmetic), leaves the per-tag map untouched for an untagged entry, and for
a tagged entry subtracts the entry size from the tag total, erasing the tag
key exactly when the total reaches zero. -/
theorem claim_c7_track_deallocation (t : MemoryTracker) (p : Nat)
    (hen : t.enabled = true) (hp : p ≠ 0) :
    (alookup t.allocations p = none → t.track_deallocation p = t) ∧
    (∀ info, alookup t.allocations p = some info →
      (t.track_deallocation p).allocations = aerase t.allocations p ∧
      (t.track_deallocation p).stats.current_allocated
        = subW t.stats.current_allocated info.size ∧
      (t.track_deallocation p).stats.total_bytes_deallocated
        = (t.stats.total_bytes_deallocated + info.size) % W ∧
      (t.track_deallocation p).stats.total_deallocations
        = (t.stats.total_deallocations + 1) % W ∧
      (info.tag = "" →
        (t.track_deallocation p).stats.allocations_by_tag
          = t.stats.allocations_by_tag) ∧
      (info.tag ≠ "" →
        (t.track_deallocation p).stats.allocations_by_tag =
          (if subW (agetD t.stats.allocations_by_tag info.tag 0) info.size = 0 then
            aerase t.stats.allocations_by_tag info.tag
          else
            astore t.stats.allocations_by_tag info.tag
              (subW (agetD t.stats.allocations_by_tag info.tag 0) info.size)))) := by
  constructor
  · intro hnone
    simp [MemoryTracker.track_deallocation, hen, hp, hnone]
  · intro info hsome
    by_cases htag : info.tag = ""
    · simp [MemoryTracker.track_deallocation, hen, hp, hsome, htag]
    · by_cases hv : subW (agetD t.stats.allocations_by_tag info.tag 0) info.size = 0
      · simp [MemoryTracker.track_deallocation, hen, hp, hsome, htag, hv]
      · simp [MemoryTracker.track_deallocation, hen, hp, hsome, htag, hv]

/-- Witness for C7, on the fixture tracker with one tagged live entry at
pointer 5: the entry is removed from the ledger. -/
theorem claim_c7_witness :
    c7t.enabled = true ∧ (5 : Nat) ≠ 0 ∧
    alookup c7t.allocations 5 = some ⟨100, 64, "x", 0⟩ ∧
    (c7t.track_deallocation 5).allocations = aerase c7t.allocations 5 ∧
    (c7t.track_deallocation 5).stats.current_allocated
      = subW c7t.stats.current_allocated 100 :=
  ⟨rfl, by decide, by decide,
   ((claim_c7_track_deallocation c7t 5 rfl (by decide)).2 ⟨100, 64, "x", 0⟩ (by decide)).1,
   ((claim_c7_track_deallocation c7t 5 rfl (by decide)).2 ⟨100, 64, "x", 0⟩ (by decide)).2.1⟩

/-- C10: track_deallocation is a silent no-op whenever tracking is disabled
or the pointer is null, even for a pointer present in the ledger; hence
disabling tracking between a tracked allocation and its deallocation leaves
the ledger entry live — still found by lookup and visible in detect_leaks —
until clear() empties the ledger. -/
theorem claim_c10_disabled_noop :
    (∀ (t : MemoryTracker) (p : Nat), t.enabled = false ∨ p = 0 →
      t.track_deallocation p = t) ∧
    (∀ (t : MemoryTracker) (p sz al now : Nat) (tag : String) (t3 : MemoryTracker),
      t.enabled = true → p ≠ 0 →
      t3 = ((t.track_allocation p sz al tag now).set_enabled false).track_deallocation p →
      alookup t3.allocations p = some ⟨sz, al, tag, now⟩ ∧
      p ∈ t3.detect_leaks ∧
      t3.clear.detect_leaks = []) := by
  have noop : ∀ (t : MemoryTracker) (p : Nat), t.enabled = false ∨ p = 0 →
      t.track_deallocation p = t := by
    intro t p hc
    simp only [MemoryTracker.track_deallocation, if_pos hc]
  refine ⟨noop, ?_⟩
  intro t p sz al now tag t3 hen hp ht3
  have hdis : ((t.track_allocation p sz al tag now).set_enabled false).enabled = false := rfl
  rw [noop _ _ (Or.inl hdis)] at ht3
  subst ht3
  have halloc : ((t.track_allocation p sz al tag now).set_enabled false).allocations
      = astore t.allocations p ⟨sz, al, tag, now⟩ := by
    simp [MemoryTracker.set_enabled, MemoryTracker.track_allocation, hen, hp]
  have hfind : alookup ((t.track_allocation p sz al tag now).set_enabled false).allocations p
      = some ⟨sz, al, tag, now⟩ := by
    rw [halloc]
    exact alookup_astore_self _ _ _
  exact ⟨hfind, mem_map_fst_of_alookup _ _ _ hfind, rfl⟩

/-- Witness for C10: on the enabled empty fixture tracker, allocating
pointer 5 and then disabling leaves the deallocation attempt without effect
and the entry leaks until clear. -/
theorem claim_c10_witness :
    (c10t.set_enabled false).track_deallocation 5 = c10t.set_enabled false ∧
    c10t.enabled = true ∧ (5 : Nat) ≠ 0 ∧
    5 ∈ (((c10t.track_allocation 5 100 64 "x" 0).set_enabled false).track_deallocation 5).detect_leaks :=
  ⟨claim_c10_disabled_noop.1 (c10t.set_enabled false) 5 (Or.inl rfl),
   rfl, by decide,
   (claim_c10_disabled_noop.2 c10t 5 100 64 0 "x"
     (((c10t.track_allocation 5 100 64 "x" 0).set_enabled false).track_deallocation 5)
     rfl (by decide) rfl).2.1⟩

/-- Replacing a tier's pool does not change the statistics. -/
theorem set_tier_pool_stats (m : MemoryPool) (t : Tier) (bp : BlockPool) :
    (m.set_tier_pool t bp).stats = m.stats := by
  cases t <;> rfl

/-- Replacing a tier's pool does not change the configuration. -/
theorem set_tier_pool_config (m : MemoryPool) (t : Tier) (bp : BlockPool) :
    (m.set_tier_pool t bp).config = m.config := by
  cases t <;> rfl

/-- bump_path changes none of the six statistics fields that are managed by
update_statistics. -/
theorem bump_path_frame (st : Statistics) (path : AllocPath) :
    (st.bump_path path).total_allocated = st.total_allocated ∧
    (st.bump_path path).current_usage = st.current_usage ∧
    (st.bump_path path).peak_usage = st.peak_usage ∧
    (st.bump_path path).allocation_count = st.allocation_count ∧
    (st.bump_path path).cache_hits = st.cache_hits ∧
    (st.bump_path path).cache_misses = st.cache_misses := by
  cases path with
  | noalloc => exact ⟨rfl, rfl, rfl, rfl, rfl, rfl⟩
  | tierHit t => cases t <;> exact ⟨rfl, rfl, rfl, rfl, rfl, rfl⟩
  | direct => exact ⟨rfl, rfl, rfl, rfl, rfl, rfl⟩

/-- C5: under a tier-monotone configuration (small ≤ medium ≤ large),
select_pool returns a tier whose block size is ≥ the request and minimal
among all tiers that can hold the request (the bounds being inclusive, a
request equal to a tier's block size stays in that tier size class), and it
returns no tier exactly when the request exceeds the large tier's block
size. -/
theorem claim_c5_select_pool (cfg : Config) (size : Nat)
    (h1 : cfg.small_block_size ≤ cfg.medium_block_size)
    (h2 : cfg.medium_block_size ≤ cfg.large_block_size) :
    (∀ t, MemoryPool.select_pool cfg size = some t →
      size ≤ cfg.tier_block_size t ∧
      ∀ t', size ≤ cfg.tier_block_size t' →
        cfg.tier_block_size t ≤ cfg.tier_block_size t') ∧
    (MemoryPool.select_pool cfg size = none ↔ cfg.large_block_size < size) := by
  by_cases hs : size ≤ cfg.small_block_size
  · constructor
    · intro t ht
      simp only [MemoryPool.select_pool] at ht
      rw [if_pos hs] at ht
      injection ht with h
      subst h
      refine ⟨hs, ?_⟩
      intro t' ht'
      cases t' <;> simp only [Config.tier_block_size] at ht' ⊢ <;> omega
    · simp only [MemoryPool.select_pool]
      rw [if_pos hs]
      constructor
      · intro hcontra
        simp at hcontra
      · intro hlt
        exfalso
        omega
  · by_cases hm : size ≤ cfg.medium_block_size
    · constructor
      · intro t ht
        simp only [MemoryPool.select_pool] at ht
        rw [if_neg hs, if_pos hm] at ht
        injection ht with h
        subst h
        refine ⟨hm, ?_⟩
        intro t' ht'
        cases t' <;> simp only [Config.tier_block_size] at ht' ⊢ <;> omega
      · simp only [MemoryPool.select_pool]
        rw [if_neg hs, if_pos hm]
        constructor
        · intro hcontra
          simp at hcontra
        · intro hlt
          exfalso
          omega
    · by_cases hl : size ≤ cfg.large_block_size
      · constructor
        · intro t ht
          simp only [MemoryPool.select_pool] at ht
          rw [if_neg hs, if_neg hm, if_pos hl] at ht
          injection ht with h
          subst h
          refine ⟨hl, ?_⟩
          intro t' ht'
          cases t' <;> simp only [Config.tier_block_size] at ht' ⊢ <;> omega
        · simp only [MemoryPool.select_pool]
          rw [if_neg hs, if_neg hm, if_pos hl]
          constructor
          · intro hcontra
            simp at hcontra
          · intro hlt
            exfalso
            omega
      · constructor
        · intro t ht
          simp only [MemoryPool.select_pool] at ht
          rw [if_neg hs, if_neg hm, if_neg hl] at ht
          simp at ht
        · simp only [MemoryPool.select_pool]
          rw [if_neg hs, if_neg hm, if_neg hl]
          simp
          omega

/-- Witness for C5 at the default configuration and a request of 100
bytes. -/
theorem claim_c5_witness :
    ({} : Config).small_block_size ≤ ({} : Config).medium_block_size ∧
    ({} : Config).medium_block_size ≤ ({} : Config).large_block_size ∧
    (MemoryPool.select_pool {} 100 = none ↔ ({} : Config).large_block_size < 100) :=
  ⟨by decide, by decide, (claim_c5_select_pool {} 100 (by decide) (by decide)).2⟩

/-- C1: in the scenario Config{small=1024×4, medium=0, large=0,
alignment=64}, the premises of the claim all hold in the model — the first
four allocate(500) calls hit the small tier (small_pool_hits = 4), the
fifth triggers expand_pool (the tier grows from 4 to 5 blocks) and still
hits small, allocate(2000) becomes a direct allocation
(direct_allocations = 1) — but after deallocating all six pointers
get_statistics().current_usage is 2^64 - 2620, not 0: allocate adds the
requested size (500) per pool hit while deallocate subtracts the tier block
size (1024), so the counter underflows by 5 × (1024 − 500) = 2620 instead
of returning to zero. -/
theorem claim_c1_scenario_eval :
    c1S2.1 = [some 4096, some 8192, some 12288, some 16384] ∧
    c1S2.2.1.stats.small_pool_hits = 4 ∧
    c1S2.2.1.small_pool.blocks.length = 4 ∧
    c1S3.2.1.small_pool.blocks.length = 5 ∧
    c1S3.1 = [some 20480, some 24576] ∧
    c1S3.2.1.stats.direct_allocations = 1 ∧
    c1Final.get_statistics.current_usage = 2 ^ 64 - 2620 ∧
    c1Final.get_statistics.current_usage ≠ 0 := by
  refine ⟨rfl, rfl, rfl, rfl, rfl, rfl, rfl, ?_⟩
  decide

/-- C6: a non-null pointer owned by no tier and absent from the
direct-allocation map makes deallocate a no-op on the pool state — the
statistics, the direct map and every tier's block set and free list are
unchanged — and the call returns normally; the only effect is the tracker
notification. -/
theorem claim_c6_unknown_pointer (m : MemoryPool) (ptr : Nat) (hp : ptr ≠ 0)
    (hs : m.small_pool.owns ptr = false)
    (hm : m.medium_pool.owns ptr = false)
    (hl : m.large_pool.owns ptr = false)
    (hd : alookup m.direct_allocations ptr = none) :
    m.deallocate ptr = (m, [Event.trackDealloc ptr]) := by
  simp [MemoryPool.deallocate, hp, hs, hm, hl, hd]

/-- Witness for C6 on the empty fixture pool and the unknown pointer 7. -/
theorem claim_c6_witness :
    (7 : Nat) ≠ 0 ∧
    mpFixture.small_pool.owns 7 = false ∧
    mpFixture.medium_pool.owns 7 = false ∧
    mpFixture.large_pool.owns 7 = false ∧
    alookup mpFixture.direct_allocations 7 = none ∧
    mpFixture.deallocate 7 = (mpFixture, [Event.trackDealloc 7]) :=
  ⟨by decide, rfl, rfl, rfl, rfl,
   claim_c6_unknown_pointer mpFixture 7 (by decide) rfl rfl rfl rfl⟩

/-- C9: deallocate notifies MemoryTracker::track_deallocation exactly once
for every non-null pointer, on every branch — tier release, direct free and
the unknown-pointer error branch alike. -/
theorem claim_c9_tracker_notified (m : MemoryPool) (ptr : Nat) (hp : ptr ≠ 0) :
    (m.deallocate ptr).2 = [Event.trackDealloc ptr] := by
  simp only [MemoryPool.deallocate, if_neg hp]
  split
  · rfl
  · split
    · rfl
    · split
      · rfl
      · split
        · rfl
        · rfl

/-- Witness for C9 on the empty fixture pool (the unknown-pointer branch)
at pointer 7. -/
theorem claim_c9_witness :
    (7 : Nat) ≠ 0 ∧ (mpFixture.deallocate 7).2 = [Event.trackDealloc 7] :=
  ⟨by decide, claim_c9_tracker_notified mpFixture 7 (by decide)⟩

/-- C8: with enable_statistics = false, allocate still bumps exactly the
counter of the path taken (small, medium or large pool hit, or
direct_allocations) — the statistics after allocate equal bump_path of the
path — while the six fields managed by update_statistics (total_allocated,
current_usage, peak_usage, allocation_count, cache_hits, cache_misses) stay
unchanged. -/
theorem claim_c8_stats_disabled (m : MemoryPool) (size : Nat) (s : Supply)
    (h : m.config.enable_statistics = false) :
    (m.allocate size s).2.1.stats = m.stats.bump_path (m.alloc_path size s) ∧
    (m.allocate size s).2.1.stats.total_allocated = m.stats.total_allocated ∧
    (m.allocate size s).2.1.stats.current_usage = m.stats.current_usage ∧
    (m.allocate size s).2.1.stats.peak_usage = m.stats.peak_usage ∧
    (m.allocate size s).2.1.stats.allocation_count = m.stats.allocation_count ∧
    (m.allocate size s).2.1.stats.cache_hits = m.stats.cache_hits ∧
    (m.allocate size s).2.1.stats.cache_misses = m.stats.cache_misses := by
  have hmain : (m.allocate size s).2.1.stats = m.stats.bump_path (m.alloc_path size s) := by
    by_cases h0 : size = 0
    · simp [MemoryPool.allocate, MemoryPool.alloc_path, h0, Statistics.bump_path]
    · cases hsel : MemoryPool.select_pool m.config size with
      | none =>
        cases hts : takeSupply s with
        | mk o s' =>
          cases o with
          | none =>
            simp [MemoryPool.allocate, MemoryPool.alloc_path, h0, hsel,
              MemoryPool.direct_path, hts, Statistics.bump_path]
          | some addr =>
            simp [MemoryPool.allocate, MemoryPool.alloc_path, h0, hsel,
              MemoryPool.direct_path, hts, MemoryPool.finish,
              MemoryPool.update_statistics, h, Statistics.bump_path]
      | some t =>
        cases hacq : (m.tier_pool t).acquire s with
        | mk o pr =>
          obtain ⟨bp', s'⟩ := pr
          cases o with
          | some q =>
            simp [MemoryPool.allocate, MemoryPool.alloc_path, h0, hsel, hacq,
              MemoryPool.finish, MemoryPool.update_statistics,
              set_tier_pool_config, set_tier_pool_stats, h, Statistics.bump_path]
          | none =>
            cases hts : takeSupply s' with
            | mk o2 s'' =>
              cases o2 with
              | none =>
                simp [MemoryPool.allocate, MemoryPool.alloc_path, h0, hsel, hacq,
                  MemoryPool.direct_path, hts, set_tier_pool_stats,
                  Statistics.bump_path]
              | some addr =>
                simp [MemoryPool.allocate, MemoryPool.alloc_path, h0, hsel, hacq,
                  MemoryPool.direct_path, hts, MemoryPool.finish,
                  MemoryPool.update_statistics, set_tier_pool_config,
                  set_tier_pool_stats, h, Statistics.bump_path]
  obtain ⟨f1, f2, f3, f4, f5, f6⟩ := bump_path_frame m.stats (m.alloc_path size s)
  exact ⟨hmain, by rw [hmain]; exact f1, by rw [hmain]; exact f2,
    by rw [hmain]; exact f3, by rw [hmain]; exact f4,
    by rw [hmain]; exact f5, by rw [hmain]; exact f6⟩

/-- Witness for C8 on the statistics-disabled fixture pool, request 500,
one available direct allocation. -/
theorem claim_c8_witness :
    mpFixtureNoStats.config.enable_statistics = false ∧
    (mpFixtureNoStats.allocate 500 [some 4096]).2.1.stats
      = mpFixtureNoStats.stats.bump_path (mpFixtureNoStats.alloc_path 500 [some 4096]) :=
  ⟨rfl, (claim_c8_stats_disabled mpFixtureNoStats 500 [some 4096] rfl).1⟩

/-- getD on an appended singleton. -/
theorem getD_append_single (l : List Block) (b : Block) (j : Nat) (d : Block) :
    (l ++ [b]).getD j d =
      if j < l.length then l.getD j d else if j = l.length then b else d := by
  induction l generalizing j with
  | nil =>
    cases j with
    | zero => simp
    | succ n => simp
  | cons a l ih =>
    cases j with
    | zero => simp
    | succ n =>
      simp only [List.cons_append, List.getD_cons_succ, ih, List.length_cons]
      by_cases h1 : n < l.length
      · rw [if_pos h1, if_pos (by omega : n + 1 < l.length + 1)]
      · by_cases h2 : n = l.length
        · rw [if_neg h1, if_pos h2, if_neg (by omega : ¬ n + 1 < l.length + 1),
            if_pos (by omega : n + 1 = l.length + 1)]
        · rw [if_neg h1, if_neg h2, if_neg (by omega : ¬ n + 1 < l.length + 1),
            if_neg (by omega : ¬ n + 1 = l.length + 1)]

/-- markBlock preserves the length. -/
theorem markBlock_length (l : List Block) (i : Nat) (u : Bool) :
    (markBlock l i u).length = l.length := by
  induction l generalizing i with
  | nil => rfl
  | cons b bs ih =>
    cases i with
    | zero => rfl
    | succ n => simp [markBlock, ih]

/-- Pointwise description of markBlock. -/
theorem markBlock_getD (l : List Block) (i j : Nat) (u : Bool) (d : Block) :
    (markBlock l i u).getD j d =
      if j = i ∧ j < l.length then { l.getD j d with in_use := u } else l.getD j d := by
  induction l generalizing i j with
  | nil => simp [markBlock]
  | cons b bs ih =>
    cases i with
    | zero =>
      cases j with
      | zero => simp [markBlock]
      | succ n => simp [markBlock]
    | succ ni =>
      cases j with
      | zero => simp [markBlock]
      | succ nj =>
        simp only [markBlock, List.getD_cons_succ, ih, List.length_cons]
        by_cases hc : nj = ni ∧ nj < bs.length
        · rw [if_pos hc, if_pos (by omega : nj + 1 = ni + 1 ∧ nj + 1 < bs.length + 1)]
        · rw [if_neg hc, if_neg (by omega : ¬(nj + 1 = ni + 1 ∧ nj + 1 < bs.length + 1))]

/-- Counting the not-in-use blocks by index equals counting them directly. -/
theorem countP_range_getD (l : List Block) :
    (List.range l.length).countP (fun i => !(l.getD i ⟨0, false⟩).in_use)
      = l.countP (fun b => !b.in_use) := by
  induction l with
  | nil => rfl
  | cons b bs ih =>
    have hfun : ((fun i => !((b :: bs).getD i ⟨0, false⟩).in_use) ∘ Nat.succ)
        = (fun i => !(bs.getD i ⟨0, false⟩).in_use) := funext fun i => rfl
    rw [List.length_cons, List.range_succ_eq_map, List.countP_cons, List.countP_map, hfun, ih,
      List.countP_cons]
    simp

/-- The not-in-use count and the in-use count partition the blocks. -/
theorem count_split (l : List Block) :
    l.countP (fun b => !b.in_use) + l.countP (fun b => b.in_use) = l.length := by
  induction l with
  | nil => rfl
  | cons b bs ih =>
    rw [List.countP_cons, List.countP_cons, List.length_cons]
    cases hb : b.in_use <;> simp [hb] <;> omega

/-- Under the invariant, the free-list length equals the number of
not-in-use blocks. -/
theorem BlockPool.inv_free_length (p : BlockPool) (hinv : p.Inv) :
    p.free_list.length = p.blocks.countP (fun b => !b.in_use) := by
  obtain ⟨hnd, hmem⟩ := hinv
  have hperm : List.Perm p.free_list
      ((List.range p.blocks.length).filter (fun i => !(p.blocks.getD i ⟨0, false⟩).in_use)) := by
    rw [List.perm_ext_iff_of_nodup hnd (List.Nodup.filter _ (List.nodup_range _))]
    intro i
    rw [List.mem_filter, List.mem_range, hmem i]
    simp
  rw [hperm.length_eq, ← List.countP_eq_length_filter, countP_range_getD]

/-- Under the invariant, free-list size plus leased-block count equals the
total block count. -/
theorem BlockPool.inv_sum (p : BlockPool) (hinv : p.Inv) :
    p.free_list.length + p.inUseCount = p.blocks.length := by
  rw [BlockPool.inv_free_length p hinv, BlockPool.inUseCount,
    ← List.countP_eq_length_filter, count_split]

/-- pushBlock preserves the invariant. -/
theorem pushBlock_inv (q : BlockPool) (addr : Nat) (hinv : q.Inv) :
    (q.pushBlock addr).Inv := by
  obtain ⟨hnd, hmem⟩ := hinv
  constructor
  · simp only [BlockPool.pushBlock, List.nodup_append]
    refine ⟨hnd, List.nodup_singleton _, ?_⟩
    intro a ha hb
    rw [List.mem_singleton] at hb
    subst hb
    exact absurd ((hmem _).mp ha).1 (by omega)
  · intro j
    simp only [BlockPool.pushBlock, List.mem_append, List.mem_singleton,
      List.length_append, List.length_singleton, getD_append_single]
    constructor
    · rintro (hj | rfl)
      · obtain ⟨hlt, hu⟩ := (hmem j).mp hj
        exact ⟨by omega, by rw [if_pos hlt]; exact hu⟩
      · exact ⟨by omega, by rw [if_neg (by omega), if_pos rfl]⟩
    · rintro ⟨hlt, hu⟩
      by_cases hj : j < q.blocks.length
      · rw [if_pos hj] at hu
        exact Or.inl ((hmem j).mpr ⟨hj, hu⟩)
      · exact Or.inr (by omega)

/-- The allocation loop preserves the invariant. -/
theorem allocLoop_inv (n : Nat) (q : BlockPool) (s : Supply) (hinv : q.Inv) :
    (BlockPool.allocLoop n q s).1.Inv := by
  induction n generalizing q s with
  | zero => exact hinv
  | succ k ih =>
    rw [BlockPool.allocLoop]
    cases hts : takeSupply s with
    | mk o s' =>
      cases o with
      | none => simpa [hts] using hinv
      | some addr => simpa [hts] using ih (q.pushBlock addr) s' (pushBlock_inv q addr hinv)

/-- A freshly constructed BlockPool satisfies the invariant. -/
theorem create_inv (block_size initial_count alignment : Nat) (allow_expansion : Bool)
    (s : Supply) :
    (BlockPool.create block_size initial_count alignment allow_expansion s).1.Inv := by
  apply allocLoop_inv
  exact ⟨List.nodup_nil, by intro i; simp [BlockPool.Inv]⟩

/-- expand_pool preserves the invariant. -/
theorem expand_inv (p : BlockPool) (s : Supply) (hinv : p.Inv) :
    (p.expand_pool s).1.Inv :=
  allocLoop_inv _ p s hinv

/-- Popping the front free index and marking it in use preserves the
invariant. -/
theorem popMark_inv (q : BlockPool) (i : Nat) (rest : List Nat)
    (hinv : q.Inv) (hfl : q.free_list = i :: rest) :
    BlockPool.Inv { q with blocks := markBlock q.blocks i true, free_list := rest } := by
  obtain ⟨hnd, hmem⟩ := hinv
  rw [hfl] at hnd
  obtain ⟨hilt, hiuse⟩ := (hmem i).mp (by rw [hfl]; exact List.mem_cons_self i rest)
  have hnotin : i ∉ rest := (List.nodup_cons.mp hnd).1
  refine ⟨(List.nodup_cons.mp hnd).2, ?_⟩
  intro j
  simp only [markBlock_length, markBlock_getD]
  constructor
  · intro hj
    have hjne : j ≠ i := fun hcontra => hnotin (hcontra ▸ hj)
    obtain ⟨hjlt, hjuse⟩ := (hmem j).mp (by rw [hfl]; exact List.mem_cons_of_mem i hj)
    exact ⟨hjlt, by rw [if_neg (by tauto)]; exact hjuse⟩
  · rintro ⟨hjlt, hjuse⟩
    by_cases hji : j = i
    · subst hji
      rw [if_pos ⟨rfl, hjlt⟩] at hjuse
      simp at hjuse
    · rw [if_neg (by tauto)] at hjuse
      have := (hmem j).mpr ⟨hjlt, hjuse⟩
      rw [hfl] at this
      cases List.mem_cons.mp this with
      | inl h => exact absurd h hji
      | inr h => exact h

/-- acquire preserves the invariant. -/
theorem acquire_inv (p : BlockPool) (s : Supply) (hinv : p.Inv) :
    (p.acquire s).2.1.Inv := by
  cases hif : (if p.free_list.isEmpty && p.allow_expansion then p.expand_pool s else (p, s)) with
  | mk q s1 =>
    have hqinv : q.Inv := by
      by_cases hc : p.free_list.isEmpty && p.allow_expansion
      · rw [if_pos hc] at hif
        have := expand_inv p s hinv
        rw [hif] at this
        exact this
      · rw [if_neg hc] at hif
        cases hif
        exact hinv
    simp only [BlockPool.acquire, hif]
    cases hfl : q.free_list with
    | nil => simpa [hfl] using hqinv
    | cons i rest => simpa [hfl] using popMark_inv q i rest hqinv hfl

/-- What a successful releaseScan means: the found index is in range, was in
use, and the result is exactly that block marked free. -/
theorem releaseScan_eq (l : List Block) (ptr : Nat) (bs' : List Block) (j : Nat)
    (h : releaseScan l ptr = some (bs', j)) :
    j < l.length ∧ (l.getD j ⟨0, false⟩).in_use = true ∧ bs' = markBlock l j false := by
  induction l generalizing bs' j with
  | nil => simp [releaseScan] at h
  | cons b bs ih =>
    by_cases hd : b.data = ptr
    · simp only [releaseScan, if_pos hd] at h
      by_cases hu : b.in_use
      · rw [if_pos hu] at h
        injection h with h
        rw [Prod.mk.injEq] at h
        obtain ⟨h1, h2⟩ := h
        subst h1
        subst h2
        exact ⟨Nat.succ_pos _, hu, rfl⟩
      · rw [if_neg hu] at h
        simp at h
    · simp only [releaseScan, if_neg hd] at h
      cases hrec : releaseScan bs ptr with
      | none =>
        rw [hrec] at h
        simp at h
      | some pr =>
        obtain ⟨bs0, j0⟩ := pr
        rw [hrec] at h
        simp only [Option.some.injEq, Prod.mk.injEq] at h
        obtain ⟨h1, h2⟩ := h
        subst h1
        subst h2
        obtain ⟨hlt, hu, hmk⟩ := ih bs0 j0 hrec
        refine ⟨by simpa using Nat.succ_lt_succ hlt, ?_, ?_⟩
        · simpa [List.getD_cons_succ] using hu
        · rw [markBlock, hmk]

/-- release preserves the invariant (double releases and unknown pointers
included). -/
theorem release_inv (p : BlockPool) (ptr : Nat) (hinv : p.Inv) :
    (p.release ptr).Inv := by
  rw [BlockPool.release]
  by_cases hp : ptr = 0
  · rw [if_pos hp]
    exact hinv
  · rw [if_neg hp]
    cases hscan : releaseScan p.blocks ptr with
    | none => exact hinv
    | some pr =>
      obtain ⟨bs', j⟩ := pr
      obtain ⟨hlt, hu, hmk⟩ := releaseScan_eq p.blocks ptr bs' j hscan
      subst hmk
      obtain ⟨hnd, hmem⟩ := hinv
      have hjnot : j ∉ p.free_list := by
        intro hj
        have hfalse := ((hmem j).mp hj).2
        rw [hfalse] at hu
        cases hu
      constructor
      · rw [List.nodup_append]
        refine ⟨hnd, List.nodup_singleton _, ?_⟩
        intro a ha hb
        rw [List.mem_singleton] at hb
        subst hb
        exact hjnot ha
      · intro k
        simp only [List.mem_append, List.mem_singleton, markBlock_length, markBlock_getD]
        constructor
        · rintro (hk | rfl)
          · obtain ⟨hkl, hku⟩ := (hmem k).mp hk
            have hkj : k ≠ j := fun hc => hjnot (hc ▸ hk)
            exact ⟨hkl, by rw [if_neg (by tauto)]; exact hku⟩
          · exact ⟨hlt, by rw [if_pos ⟨rfl, hlt⟩]⟩
        · rintro ⟨hkl, hku⟩
          by_cases hkj : k = j
          · exact Or.inr hkj
          · rw [if_neg (by tauto)] at hku
            exact Or.inl ((hmem k).mpr ⟨hkl, hku⟩)

/-- Every single operation preserves the invariant. -/
theorem step_inv (p : BlockPool) (s : Supply) (op : PoolOp) (hinv : p.Inv) :
    (p.step s op).1.Inv := by
  cases op with
  | acquire =>
    cases hacq : p.acquire s with
    | mk o pr =>
      obtain ⟨p', s'⟩ := pr
      have := acquire_inv p s hinv
      rw [hacq] at this
      simpa [BlockPool.step, hacq] using this
  | release ptr => exact release_inv p ptr hinv
  | expand => exact expand_inv p s hinv

/-- Any sequence of operations preserves the invariant. -/
theorem run_inv (p : BlockPool) (s : Supply) (ops : List PoolOp) (hinv : p.Inv) :
    (p.run s ops).1.Inv := by
  induction ops generalizing p s with
  | nil => exact hinv
  | cons op ops ih =>
    rw [BlockPool.run]
    cases hstep : p.step s op with
    | mk p' s' =>
      have := step_inv p s op hinv
      rw [hstep] at this
      simpa [hstep] using ih p' s' this

/-- C4: for every BlockPool configuration, allocation oracle and sequence of
acquire / release / expand_pool operations — double releases and failed
expansion allocations included — the free-list size plus the number of
in-use blocks equals the total number of owned blocks at every point
between operations (equivalently, after running any prefix of an operation
sequence). -/
theorem claim_c4_blockpool_invariant (block_size initial_count alignment : Nat)
    (allow_expansion : Bool) (s : Supply) (ops : List PoolOp) :
    ((BlockPool.create block_size initial_count alignment allow_expansion s).1.run
        (BlockPool.create block_size initial_count alignment allow_expansion s).2 ops).1.free_list.length
      + ((BlockPool.create block_size initial_count alignment allow_expansion s).1.run
        (BlockPool.create block_size initial_count alignment allow_expansion s).2 ops).1.inUseCount
      = ((BlockPool.create block_size initial_count alignment allow_expansion s).1.run
        (BlockPool.create block_size initial_count alignment allow_expansion s).2 ops).1.blocks.length :=
  BlockPool.inv_sum _
    (run_inv _ _ ops (create_inv block_size initial_count alignment allow_expansion s))

end Memory
end SrPoc
